import Mathlib

/-!
Verification of the local service supervisor of `sillygod/jterm`
(`src-tauri/src/python/health.rs`, `src-tauri/src/python/launcher.rs`,
`src-tauri/src/commands/system.rs`, `src-tauri/src/lib.rs`).

The OS-facing effects (HTTP probes, `try_wait`, `kill`, `wait`, port binding)
are modelled by oracles supplied as explicit arguments, and the side effects
each function performs are reified as event traces, so that the control flow
of the Rust source is mirrored one-to-one.
-/

namespace JTerm

/-! ### Embedding of `src-tauri/src/python/health.rs` -/

/-- `HealthCheckConfig` from `health.rs`. -/
structure HealthCheckConfig where
  max_attempts : Nat
  timeout_secs : Nat
  retry_delay_ms : Nat
deriving Repr, DecidableEq

/-- `impl Default for HealthCheckConfig`: 30 attempts, 30 s, 1000 ms. -/
def HealthCheckConfig.default : HealthCheckConfig :=
  { max_attempts := 30, timeout_secs := 30, retry_delay_ms := 1000 }

/-- Outcome of one `client.get(&health_url).send().await` in the probe loop:
`Ok` with a success status, `Ok` with any other status, or `Err`. -/
inductive HttpOutcome
  | success
  | badStatus
  | netError
deriving Repr, DecidableEq

/-- Observable events of `wait_for_backend_ready`: one GET issued for
attempt number `n` (1-based, as in the source's log lines), or a
`sleep(Duration::from_millis(ms))`. -/
inductive HCEvent
  | attempt (n : Nat)
  | sleep (ms : Nat)
deriving Repr, DecidableEq

def HCEvent.isAttempt : HCEvent → Bool
  | .attempt _ => true
  | _ => false

def HCEvent.isSleep : HCEvent → Bool
  | .sleep _ => true
  | _ => false

/-- Result of `wait_for_backend_ready`: `Ok(())`, or the single aggregated
`anyhow!("... after {} attempts ({} seconds)", max_attempts, timeout_secs)`. -/
inductive HCResult
  | ok
  | timeoutErr (attempts : Nat) (secs : Nat)
deriving Repr, DecidableEq

/-- The `for attempt in 1..=config.max_attempts` loop of
`wait_for_backend_ready`. `resp n` is the outcome of the GET of attempt `n`;
`rem` is the number of attempts still allowed (invariant of the call from the
wrapper: `rem = max_attempts - attempt + 1`, so `rem = 1` exactly when
`attempt = max_attempts`, i.e. when the source's `attempt < config.max_attempts`
sleep guard is false). -/
def healthAttempts (resp : Nat → HttpOutcome) (cfg : HealthCheckConfig) :
    Nat → Nat → HCResult × List HCEvent
  | _, 0 => (.timeoutErr cfg.max_attempts cfg.timeout_secs, [])
  | attempt, rem + 1 =>
    match resp attempt with
    | .success => (.ok, [.attempt attempt])
    | _ =>
      if rem = 0 then
        (.timeoutErr cfg.max_attempts cfg.timeout_secs, [.attempt attempt])
      else
        let r := healthAttempts resp cfg (attempt + 1) rem
        (r.1, .attempt attempt :: .sleep cfg.retry_delay_ms :: r.2)

/-- `wait_for_backend_ready(port, config)` from `health.rs`, with the network
abstracted into `resp`. `config.unwrap_or_default()` is `Option.getD`. -/
def wait_for_backend_ready (resp : Nat → HttpOutcome)
    (config : Option HealthCheckConfig) : HCResult × List HCEvent :=
  let cfg := config.getD HealthCheckConfig.default
  healthAttempts resp cfg 1 cfg.max_attempts

/-- `is_port_available(port)` from `health.rs`: whether
`TcpListener::bind(("127.0.0.1", port))` succeeds, abstracted as the oracle
`avail`. The bound listener is dropped (released) immediately. -/
def is_port_available (avail : Nat → Bool) (port : Nat) : Bool :=
  avail port

/-- The `for port in start_port..=end_port` loop of `find_available_port`,
with explicit fuel `= end_port + 1 - start_port`. -/
def scanPorts (avail : Nat → Bool) : Nat → Nat → Option Nat
  | _, 0 => none
  | port, fuel + 1 =>
    if is_port_available avail port then some port
    else scanPorts avail (port + 1) fuel

/-- `find_available_port(start_port, end_port)` from `health.rs`. -/
def find_available_port (avail : Nat → Bool) (start_port end_port : Nat) :
    Option Nat :=
  scanPorts avail start_port (end_port + 1 - start_port)

/-! ### Embedding of `src-tauri/src/python/launcher.rs` -/

/-- `PythonBackend`: the supervisor state. `process: Option<Child>` is
modelled by the child's pid. -/
structure PythonBackend where
  process : Option Nat
  port : Nat
  base_url : String
deriving Repr, DecidableEq

/-- Outcome of one `child.try_wait()` call: `Ok(Some(_))` (exited),
`Ok(None)` (still running), or `Err(_)`. -/
inductive TryWaitResult
  | exited
  | running
  | statusErr
deriving Repr, DecidableEq

/-- Observable events of `PythonBackend::shutdown`. -/
inductive SdEvent
  | sigterm (pid : Nat)
  | tryWait
  | sleep100
  | logGraceful
  | logForceKill
  | kill
  | reap
deriving Repr, DecidableEq

def SdEvent.isKill : SdEvent → Bool
  | .kill => true
  | _ => false

def SdEvent.isSleep100 : SdEvent → Bool
  | .sleep100 => true
  | _ => false

def SdEvent.isTryWait : SdEvent → Bool
  | .tryWait => true
  | _ => false

def SdEvent.isSigterm : SdEvent → Bool
  | .sigterm _ => true
  | _ => false

/-- Result of `PythonBackend::shutdown`: `Ok(())`, or the `Err` from
`child.kill().context(..)` resp. `child.wait().context(..)`. -/
inductive SdResult
  | ok
  | killFailed
  | reapFailed
deriving Repr, DecidableEq

/-- OS oracle for one `shutdown` call: `tw i` is the result of the `i`-th
`try_wait` in the grace loop (0-based), `killOk`/`waitOk` whether
`child.kill()` / `child.wait()` succeed. -/
structure ShutdownWorld where
  tw : Nat → TryWaitResult
  killOk : Bool
  waitOk : Bool

/-- The `for _ in 0..50` grace loop of `shutdown` (unix only): each iteration
calls `try_wait`; `Ok(Some)` logs and returns success, `Ok(None)` sleeps
100 ms and continues, `Err` warns and breaks to the force-kill path.
Returns whether the child exited gracefully, plus the events. -/
def gracefulWait (tw : Nat → TryWaitResult) : Nat → Nat → Bool × List SdEvent
  | _, 0 => (false, [])
  | i, fuel + 1 =>
    match tw i with
    | .exited => (true, [.tryWait, .logGraceful])
    | .running =>
      let r := gracefulWait tw (i + 1) fuel
      (r.1, .tryWait :: .sleep100 :: r.2)
    | .statusErr => (false, [.tryWait])

/-- The force-kill tail of `shutdown`: `warn!("Force killing ...")`,
`child.kill()?`, `child.wait()?`, `info!("... terminated")`. `b2` is the
supervisor state after `self.process.take()`. -/
def forceKill (b2 : PythonBackend) (w : ShutdownWorld) (pre : List SdEvent) :
    SdResult × PythonBackend × List SdEvent :=
  if w.killOk then
    if w.waitOk then (.ok, b2, pre ++ [.logForceKill, .kill, .reap])
    else (.reapFailed, b2, pre ++ [.logForceKill, .kill, .reap])
  else (.killFailed, b2, pre ++ [.logForceKill, .kill])

/-- `PythonBackend::shutdown(&mut self)` from `launcher.rs`.
`unixPlatform` mirrors `#[cfg(unix)]`: on unix the SIGTERM + grace-loop block
is present, on other targets (the source also supports windows, see
`get_python_executable_name`) the code goes straight to `child.kill()`.
`self.process.take()` clears the handle before anything can fail. -/
def shutdown (unixPlatform : Bool) (b : PythonBackend) (w : ShutdownWorld) :
    SdResult × PythonBackend × List SdEvent :=
  match b.process with
  | none => (.ok, b, [])
  | some pid =>
    let b2 : PythonBackend := { b with process := none }
    if unixPlatform then
      let g := gracefulWait w.tw 0 50
      if g.1 then (.ok, b2, .sigterm pid :: g.2)
      else forceKill b2 w (.sigterm pid :: g.2)
    else
      forceKill b2 w []

/-- `PythonBackend::is_running(&mut self)` from `launcher.rs`: `true` iff a
handle is present and its `try_wait` returns `Ok(None)`; the state is
returned unchanged (the method assigns to no field). -/
def is_running (b : PythonBackend) (tw : TryWaitResult) : Bool × PythonBackend :=
  match b.process with
  | some _ =>
    match tw with
    | .exited => (false, b)
    | .running => (true, b)
    | .statusErr => (false, b)
  | none => (false, b)

/-- Failure cases of `PythonBackend::launch`, one per `?`/`return Err` site. -/
inductive LaunchError
  | noPort
  | dbPathErr
  | pythonPathsErr
  | pythonMissing
  | appRootMissing
  | spawnFailed
  | healthCheckFailed (attempts : Nat) (secs : Nat)
deriving Repr, DecidableEq

/-- Process-lifecycle events of `launch`. `killChild` is never produced by
the source; it is in the type so that absence of a compensating kill is
expressible. -/
inductive LaunchEvent
  | spawn (pid : Nat)
  | killChild (pid : Nat)
deriving Repr, DecidableEq

def LaunchEvent.isKillChild : LaunchEvent → Bool
  | .killChild _ => true
  | _ => false

/-- Environment oracle for one `launch` call. -/
structure LaunchWorld where
  avail : Nat → Bool
  dbPathOk : Bool
  pathsOk : Bool
  pythonExists : Bool
  appRootExists : Bool
  spawnOk : Bool
  pid : Nat
  resp : Nat → HttpOutcome

/-- `PythonBackend::launch(app_handle)` from `launcher.rs`: find a port in
8000..=9000, resolve the database path and python paths, check both paths
exist, spawn, then delegate to `wait_for_backend_ready` with the default
config. On a probe failure the `?` operator propagates the error; the local
`child` is dropped, which for `std::process::Child` does not kill it — no
`killChild` event is emitted on any path. -/
def launch (w : LaunchWorld) : Except LaunchError PythonBackend × List LaunchEvent :=
  match find_available_port w.avail 8000 9000 with
  | none => (.error .noPort, [])
  | some port =>
    if !w.dbPathOk then (.error .dbPathErr, [])
    else if !w.pathsOk then (.error .pythonPathsErr, [])
    else if !w.pythonExists then (.error .pythonMissing, [])
    else if !w.appRootExists then (.error .appRootMissing, [])
    else if !w.spawnOk then (.error .spawnFailed, [])
    else
      let events := [LaunchEvent.spawn w.pid]
      match wait_for_backend_ready w.resp (some HealthCheckConfig.default) with
      | (.timeoutErr a s, _) => (.error (.healthCheckFailed a s), events)
      | (.ok, _) =>
        (.ok { process := some w.pid, port := port,
               base_url := "http://localhost:" ++ toString port }, events)

/-! ### Embedding of `src-tauri/src/commands/system.rs` (`quit_app`) and the
`CloseRequested` window-event handler of `src-tauri/src/lib.rs` -/

/-- Observable events of the two shutdown call sites. -/
inductive QEvent
  | backendShutdown
  | logShutdownError
  | logShutdown
  | exit (code : Nat)
deriving Repr, DecidableEq

inductive QResult
  | ok
  | err
deriving Repr, DecidableEq

/-- `quit_app(app, state, force)` from `system.rs`: lock the shared slot,
`take()` the backend; if present, run `shutdown()`; on failure log the
error, and either `app.exit(1)` when `force.unwrap_or(false)` (the function
then still falls through to `log_shutdown` and `app.exit(0)`), or return
`Err` without exiting. Returns (command result, slot after, events). -/
def quit_app (slot : Option PythonBackend) (force : Option Bool)
    (unixPlatform : Bool) (w : ShutdownWorld) :
    QResult × Option PythonBackend × List QEvent :=
  match slot with
  | none => (.ok, none, [.logShutdown, .exit 0])
  | some backend =>
    let r := shutdown unixPlatform backend w
    match r.1 with
    | .ok => (.ok, none, [.backendShutdown, .logShutdown, .exit 0])
    | _ =>
      if force.getD false then
        (.ok, none,
          [.backendShutdown, .logShutdownError, .exit 1, .logShutdown, .exit 0])
      else
        (.err, none, [.backendShutdown, .logShutdownError])

/-- The `WindowEvent::CloseRequested` arm of `on_window_event` in `lib.rs`:
lock the slot, `take()`, run `shutdown()` if a backend was present, log any
error, then `logger.log_shutdown()`. The handler never calls
`api.prevent_close()`, so the window close (and hence application exit)
always proceeds once the handler returns. -/
def on_close_requested (slot : Option PythonBackend)
    (unixPlatform : Bool) (w : ShutdownWorld) :
    Option PythonBackend × List QEvent :=
  match slot with
  | none => (none, [.logShutdown])
  | some backend =>
    let r := shutdown unixPlatform backend w
    match r.1 with
    | .ok => (none, [.backendShutdown, .logShutdown])
    | _ => (none, [.backendShutdown, .logShutdownError, .logShutdown])

/-! ### The shared handle slot (`AppState.python_backend`) -/

/-- `Option::take` on the mutex-guarded slot: returns the old contents and
leaves the slot empty. The `tokio::sync::Mutex` serialises concurrent
callers, so a set of concurrent `take()`s is a sequence of `slot_take`s. -/
def slot_take (slot : Option PythonBackend) :
    Option PythonBackend × Option PythonBackend :=
  (slot, none)

/-- The values received by `n` (mutex-serialised) callers that each perform
`slot_take` on the shared slot in turn. -/
def run_takers (slot : Option PythonBackend) : Nat → List (Option PythonBackend)
  | 0 => []
  | n + 1 =>
    let r := slot_take slot
    r.1 :: run_takers r.2 n

/-- Total number of `kill` events produced when each caller runs `shutdown`
on the handle it received (callers that received `none` do nothing). -/
def taker_kill_total (unixPlatform : Bool) (w : ShutdownWorld)
    (received : List (Option PythonBackend)) : Nat :=
  (received.map (fun o =>
    match o with
    | some b => (shutdown unixPlatform b w).2.2.countP SdEvent.isKill
    | none => 0)).sum

/-! ### Lemmas about the probe loop of `wait_for_backend_ready` -/

/-- When no attempt ever gets a success status, the loop runs all `rem`
remaining attempts, sleeps `rem - 1` times (never after the last attempt)
and ends in the aggregated timeout error. -/
theorem healthAttempts_never_success (resp : Nat → HttpOutcome)
    (cfg : HealthCheckConfig) (hns : ∀ n, resp n ≠ .success) :
    ∀ rem attempt, 1 ≤ rem →
      (healthAttempts resp cfg attempt rem).1
          = .timeoutErr cfg.max_attempts cfg.timeout_secs ∧
      (healthAttempts resp cfg attempt rem).2.countP HCEvent.isAttempt = rem ∧
      (healthAttempts resp cfg attempt rem).2.countP HCEvent.isSleep = rem - 1 ∧
      (∀ ms, HCEvent.sleep ms ∈ (healthAttempts resp cfg attempt rem).2 →
        ms = cfg.retry_delay_ms) ∧
      ∃ t, (healthAttempts resp cfg attempt rem).2
          = t ++ [HCEvent.attempt (attempt + rem - 1)] := by
  intro rem
  induction rem with
  | zero => intro attempt h; exact absurd h (by omega)
  | succ rem ih =>
    intro attempt _
    cases hr : resp attempt with
    | success => exact absurd hr (hns attempt)
    | badStatus =>
      by_cases h0 : rem = 0
      · subst h0
        simp [healthAttempts, hr, List.countP_cons, HCEvent.isAttempt,
          HCEvent.isSleep]
      · have ihx := ih (attempt + 1) (by omega)
        simp only [healthAttempts, hr, h0, if_false]
        refine ⟨ihx.1, ?_, ?_, ?_, ?_⟩
        · simp [List.countP_cons, HCEvent.isAttempt, ihx.2.1]
        · simp [List.countP_cons, HCEvent.isSleep, ihx.2.2.1]
          omega
        · intro ms hm
          simp only [List.mem_cons] at hm
          rcases hm with h | h | h
          · exact absurd h (by simp)
          · injection h
          · exact ihx.2.2.2.1 ms h
        · obtain ⟨t, ht⟩ := ihx.2.2.2.2
          refine ⟨.attempt attempt :: .sleep cfg.retry_delay_ms :: t, ?_⟩
          have he : attempt + 1 + rem - 1 = attempt + (rem + 1) - 1 := by omega
          rw [he] at ht
          simp [ht]
    | netError =>
      by_cases h0 : rem = 0
      · subst h0
        simp [healthAttempts, hr, List.countP_cons, HCEvent.isAttempt,
          HCEvent.isSleep]
      · have ihx := ih (attempt + 1) (by omega)
        simp only [healthAttempts, hr, h0, if_false]
        refine ⟨ihx.1, ?_, ?_, ?_, ?_⟩
        · simp [List.countP_cons, HCEvent.isAttempt, ihx.2.1]
        · simp [List.countP_cons, HCEvent.isSleep, ihx.2.2.1]
          omega
        · intro ms hm
          simp only [List.mem_cons] at hm
          rcases hm with h | h | h
          · exact absurd h (by simp)
          · injection h
          · exact ihx.2.2.2.1 ms h
        · obtain ⟨t, ht⟩ := ihx.2.2.2.2
          refine ⟨.attempt attempt :: .sleep cfg.retry_delay_ms :: t, ?_⟩
          have he : attempt + 1 + rem - 1 = attempt + (rem + 1) - 1 := by omega
          rw [he] at ht
          simp [ht]

/-- When the first success happens at offset `k` from the current attempt
(`k < rem`), the loop stops right there: `k + 1` attempts, `k` sleeps. -/
theorem healthAttempts_first_success (resp : Nat → HttpOutcome)
    (cfg : HealthCheckConfig) :
    ∀ rem attempt k, k < rem → resp (attempt + k) = .success →
      (∀ j, j < k → resp (attempt + j) ≠ .success) →
      (healthAttempts resp cfg attempt rem).1 = .ok ∧
      (healthAttempts resp cfg attempt rem).2.countP HCEvent.isAttempt = k + 1 ∧
      (healthAttempts resp cfg attempt rem).2.countP HCEvent.isSleep = k ∧
      ∃ t, (healthAttempts resp cfg attempt rem).2
          = t ++ [HCEvent.attempt (attempt + k)] := by
  intro rem
  induction rem with
  | zero => intro attempt k hk; exact absurd hk (by omega)
  | succ rem ih =>
    intro attempt k hk hsucc hpre
    cases k with
    | zero =>
      have h0 : resp attempt = .success := by simpa using hsucc
      simp [healthAttempts, h0, List.countP_cons, HCEvent.isAttempt,
        HCEvent.isSleep]
    | succ k =>
      have hne : resp attempt ≠ .success := by
        have := hpre 0 (by omega)
        simpa using this
      have hrem : rem ≠ 0 := by omega
      have hsucc1 : resp (attempt + 1 + k) = .success := by
        have he : attempt + 1 + k = attempt + (k + 1) := by omega
        rw [he]; exact hsucc
      have hpre1 : ∀ j, j < k → resp (attempt + 1 + j) ≠ .success := by
        intro j hj
        have he : attempt + 1 + j = attempt + (j + 1) := by omega
        rw [he]; exact hpre (j + 1) (by omega)
      have ihx := ih (attempt + 1) k (by omega) hsucc1 hpre1
      cases hr : resp attempt with
      | success => exact absurd hr hne
      | badStatus =>
        simp only [healthAttempts, hr, hrem, if_false]
        refine ⟨ihx.1, ?_, ?_, ?_⟩
        · simp [List.countP_cons, HCEvent.isAttempt, ihx.2.1]
        · simp [List.countP_cons, HCEvent.isSleep, ihx.2.2.1]
        · obtain ⟨t, ht⟩ := ihx.2.2.2
          refine ⟨.attempt attempt :: .sleep cfg.retry_delay_ms :: t, ?_⟩
          have he : attempt + 1 + k = attempt + (k + 1) := by omega
          rw [he] at ht
          simp [ht]
      | netError =>
        simp only [healthAttempts, hr, hrem, if_false]
        refine ⟨ihx.1, ?_, ?_, ?_⟩
        · simp [List.countP_cons, HCEvent.isAttempt, ihx.2.1]
        · simp [List.countP_cons, HCEvent.isSleep, ihx.2.2.1]
        · obtain ⟨t, ht⟩ := ihx.2.2.2
          refine ⟨.attempt attempt :: .sleep cfg.retry_delay_ms :: t, ?_⟩
          have he : attempt + 1 + k = attempt + (k + 1) := by omega
          rw [he] at ht
          simp [ht]

/-- Claim C4: `wait_for_backend_ready` with `max_attempts = N` and
`retry_delay = d` performs exactly `N` probe attempts against a server that
never answers with a success status, sleeps `d` between consecutive attempts
but never after the final one, and returns the single aggregated error naming
the attempt count and the configured duration; it returns success as soon as
one attempt gets a success status, retrying (not surfacing) any other status
or network error. -/
theorem C4_wait_for_ready_probe_loop (resp : Nat → HttpOutcome)
    (cfg : HealthCheckConfig) :
    ((∀ n, resp n ≠ .success) →
      (wait_for_backend_ready resp (some cfg)).1
          = .timeoutErr cfg.max_attempts cfg.timeout_secs ∧
      (wait_for_backend_ready resp (some cfg)).2.countP HCEvent.isAttempt
          = cfg.max_attempts ∧
      (wait_for_backend_ready resp (some cfg)).2.countP HCEvent.isSleep
          = cfg.max_attempts - 1 ∧
      (∀ ms, HCEvent.sleep ms ∈ (wait_for_backend_ready resp (some cfg)).2 →
        ms = cfg.retry_delay_ms) ∧
      (∀ ms, (wait_for_backend_ready resp (some cfg)).2.getLast?
          ≠ some (.sleep ms))) ∧
    (∀ k, 1 ≤ k → k ≤ cfg.max_attempts → resp k = .success →
      (∀ j, 1 ≤ j → j < k → resp j ≠ .success) →
      (wait_for_backend_ready resp (some cfg)).1 = .ok ∧
      (wait_for_backend_ready resp (some cfg)).2.countP HCEvent.isAttempt = k ∧
      (wait_for_backend_ready resp (some cfg)).2.countP HCEvent.isSleep
          = k - 1) := by
  have hw : wait_for_backend_ready resp (some cfg)
      = healthAttempts resp cfg 1 cfg.max_attempts := rfl
  constructor
  · intro hns
    rw [hw]
    rcases Nat.eq_zero_or_pos cfg.max_attempts with hN | hN
    · simp [hN, healthAttempts]
    · have h := healthAttempts_never_success resp cfg hns cfg.max_attempts 1 hN
      refine ⟨h.1, h.2.1, h.2.2.1, h.2.2.2.1, ?_⟩
      intro ms
      obtain ⟨t, ht⟩ := h.2.2.2.2
      rw [ht, List.getLast?_concat]
      simp
  · intro k hk1 hkN hsucc hpre
    rw [hw]
    have hs1 : resp (1 + (k - 1)) = .success := by
      have he : 1 + (k - 1) = k := by omega
      rw [he]; exact hsucc
    have hp1 : ∀ j, j < k - 1 → resp (1 + j) ≠ .success := by
      intro j hj
      exact hpre (1 + j) (by omega) (by omega)
    have h := healthAttempts_first_success resp cfg cfg.max_attempts 1 (k - 1)
      (by omega) hs1 hp1
    refine ⟨h.1, ?_, ?_⟩
    · rw [h.2.1]; omega
    · rw [h.2.2.1]

/-- Witness for C4 at a concrete configuration: a server that always fails
with a network error exhausts all 3 attempts with 2 sleeps, and a server that
first succeeds on attempt 2 stops after 2 attempts and 1 sleep. -/
theorem C4_wait_for_ready_probe_loop_witness :
    ((wait_for_backend_ready (fun _ => .netError) (some ⟨3, 30, 10⟩)).1
        = .timeoutErr 3 30 ∧
      (wait_for_backend_ready (fun _ => .netError)
          (some ⟨3, 30, 10⟩)).2.countP HCEvent.isAttempt = 3 ∧
      (wait_for_backend_ready (fun _ => .netError)
          (some ⟨3, 30, 10⟩)).2.countP HCEvent.isSleep = 2) ∧
    ((wait_for_backend_ready (fun n => if n = 2 then .success else .badStatus)
        (some ⟨3, 30, 10⟩)).1 = .ok ∧
      (wait_for_backend_ready (fun n => if n = 2 then .success else .badStatus)
          (some ⟨3, 30, 10⟩)).2.countP HCEvent.isAttempt = 2) := by
  have h1 := (C4_wait_for_ready_probe_loop (fun _ => .netError) ⟨3, 30, 10⟩).1
    (by intro n; simp)
  have h2 := (C4_wait_for_ready_probe_loop
      (fun n => if n = 2 then .success else .badStatus) ⟨3, 30, 10⟩).2
    2 (by omega) (by norm_num) (by norm_num)
    (by intro j h1j hj2; interval_cases j; simp)
  exact ⟨⟨h1.1, h1.2.1, h1.2.2.1⟩, h2.1, h2.2.1⟩

/-! ### Lemmas about the shutdown grace loop -/

/-- The grace loop only polls, sleeps and logs: it produces no `kill`,
`logForceKill`, `reap` or `sigterm` events. -/
theorem gracefulWait_events (tw : Nat → TryWaitResult) :
    ∀ fuel i, SdEvent.kill ∉ (gracefulWait tw i fuel).2 ∧
      SdEvent.logForceKill ∉ (gracefulWait tw i fuel).2 ∧
      SdEvent.reap ∉ (gracefulWait tw i fuel).2 ∧
      ∀ p, SdEvent.sigterm p ∉ (gracefulWait tw i fuel).2 := by
  intro fuel
  induction fuel with
  | zero => intro i; simp [gracefulWait]
  | succ fuel ih =>
    intro i
    cases hr : tw i with
    | exited => simp [gracefulWait, hr]
    | running =>
      have ihx := ih (i + 1)
      refine ⟨?_, ?_, ?_, ?_⟩
      · simp [gracefulWait, hr]; exact ihx.1
      · simp [gracefulWait, hr]; exact ihx.2.1
      · simp [gracefulWait, hr]; exact ihx.2.2.1
      · intro p; simp [gracefulWait, hr]; exact ihx.2.2.2 p
    | statusErr => simp [gracefulWait, hr]

/-- If the first `k` polls see the child still running and poll `k` (within
the window) sees it exited, the loop reports a graceful exit after `k`
sleeps and `k + 1` polls. -/
theorem gracefulWait_exit_at (tw : Nat → TryWaitResult) :
    ∀ fuel i k, k < fuel → (∀ j, j < k → tw (i + j) = .running) →
      tw (i + k) = .exited →
      (gracefulWait tw i fuel).1 = true ∧
      (gracefulWait tw i fuel).2.countP SdEvent.isSleep100 = k ∧
      (gracefulWait tw i fuel).2.countP SdEvent.isTryWait = k + 1 := by
  intro fuel
  induction fuel with
  | zero => intro i k hk; exact absurd hk (by omega)
  | succ fuel ih =>
    intro i k hk hrun hexit
    cases k with
    | zero =>
      have h0 : tw i = .exited := by simpa using hexit
      simp [gracefulWait, h0, List.countP_cons, SdEvent.isSleep100,
        SdEvent.isTryWait]
    | succ k =>
      have h0 : tw i = .running := by
        have := hrun 0 (by omega)
        simpa using this
      have hrun1 : ∀ j, j < k → tw (i + 1 + j) = .running := by
        intro j hj
        have he : i + 1 + j = i + (j + 1) := by omega
        rw [he]; exact hrun (j + 1) (by omega)
      have hexit1 : tw (i + 1 + k) = .exited := by
        have he : i + 1 + k = i + (k + 1) := by omega
        rw [he]; exact hexit
      have ihx := ih (i + 1) k (by omega) hrun1 hexit1
      refine ⟨?_, ?_, ?_⟩
      · simp [gracefulWait, h0]; exact ihx.1
      · simp [gracefulWait, h0, List.countP_cons, SdEvent.isSleep100,
          SdEvent.isTryWait, ihx.2.1]
      · simp [gracefulWait, h0, List.countP_cons, SdEvent.isSleep100,
          SdEvent.isTryWait, ihx.2.2]

/-- If the child is still running at every poll of the window, the loop
reports no graceful exit after `fuel` sleeps and `fuel` polls. -/
theorem gracefulWait_all_running (tw : Nat → TryWaitResult) :
    ∀ fuel i, (∀ j, j < fuel → tw (i + j) = .running) →
      (gracefulWait tw i fuel).1 = false ∧
      (gracefulWait tw i fuel).2.countP SdEvent.isSleep100 = fuel ∧
      (gracefulWait tw i fuel).2.countP SdEvent.isTryWait = fuel := by
  intro fuel
  induction fuel with
  | zero => intro i _; simp [gracefulWait]
  | succ fuel ih =>
    intro i hrun
    have h0 : tw i = .running := by
      have := hrun 0 (by omega)
      simpa using this
    have hrun1 : ∀ j, j < fuel → tw (i + 1 + j) = .running := by
      intro j hj
      have he : i + 1 + j = i + (j + 1) := by omega
      rw [he]; exact hrun (j + 1) (by omega)
    have ihx := ih (i + 1) hrun1
    refine ⟨?_, ?_, ?_⟩
    · simp [gracefulWait, h0]; exact ihx.1
    · simp [gracefulWait, h0, List.countP_cons, SdEvent.isSleep100,
        SdEvent.isTryWait, ihx.2.1]
    · simp [gracefulWait, h0, List.countP_cons, SdEvent.isSleep100,
        SdEvent.isTryWait, ihx.2.2]

/-! ### Helper facts about `shutdown` -/

/-- With no process handle, `shutdown` is a pure no-op success. -/
theorem shutdown_of_none (plat : Bool) (b : PythonBackend) (w : ShutdownWorld)
    (h : b.process = none) : shutdown plat b w = (.ok, b, []) := by
  simp [shutdown, h]

/-- After any `shutdown` call the supervisor holds no process handle:
`self.process.take()` runs before anything can fail. -/
theorem shutdown_clears (plat : Bool) (b : PythonBackend) (w : ShutdownWorld) :
    (shutdown plat b w).2.1.process = none := by
  cases hp : b.process with
  | none => simp [shutdown, hp]
  | some pid =>
    simp only [shutdown, hp]
    by_cases hu : plat
    · by_cases hg : (gracefulWait w.tw 0 50).1
      · simp [hu, hg]
      · simp [hu, hg, forceKill]
        by_cases hk : w.killOk
        · by_cases hw2 : w.waitOk
          · simp [hk, hw2]
          · simp [hk, hw2]
        · simp [hk]
    · simp [hu, forceKill]
      by_cases hk : w.killOk
      · by_cases hw2 : w.waitOk
        · simp [hk, hw2]
        · simp [hk, hw2]
      · simp [hk]

/-- `shutdown` never changes the port or the base URL. -/
theorem shutdown_preserves (plat : Bool) (b : PythonBackend)
    (w : ShutdownWorld) :
    (shutdown plat b w).2.1.port = b.port ∧
    (shutdown plat b w).2.1.base_url = b.base_url := by
  cases hp : b.process with
  | none => simp [shutdown, hp]
  | some pid =>
    simp only [shutdown, hp]
    by_cases hu : plat
    · by_cases hg : (gracefulWait w.tw 0 50).1
      · simp [hu, hg]
      · simp [hu, hg, forceKill]
        by_cases hk : w.killOk
        · by_cases hw2 : w.waitOk
          · simp [hk, hw2]
          · simp [hk, hw2]
        · simp [hk]
    · simp [hu, forceKill]
      by_cases hk : w.killOk
      · by_cases hw2 : w.waitOk
        · simp [hk, hw2]
        · simp [hk, hw2]
      · simp [hk]

/-- A single `shutdown` call issues at most one `child.kill()`. -/
theorem shutdown_kill_count (plat : Bool) (b : PythonBackend)
    (w : ShutdownWorld) :
    (shutdown plat b w).2.2.countP SdEvent.isKill ≤ 1 := by
  have hg0 : ∀ fuel i,
      (gracefulWait w.tw i fuel).2.countP SdEvent.isKill = 0 := by
    intro fuel i
    rw [List.countP_eq_zero]
    intro a ha
    have := (gracefulWait_events w.tw fuel i).1
    cases a <;> simp [SdEvent.isKill]
    exact absurd ha this
  cases hp : b.process with
  | none => simp [shutdown, hp]
  | some pid =>
    simp only [shutdown, hp]
    by_cases hu : plat
    · by_cases hg : (gracefulWait w.tw 0 50).1
      · simp [hu, hg, List.countP_cons, SdEvent.isKill, hg0 50 0]
      · simp only [hu, hg, if_true, if_false, Bool.not_eq_true, forceKill]
        by_cases hk : w.killOk
        · by_cases hw2 : w.waitOk
          · simp [hk, hw2, List.countP_append, List.countP_cons,
              SdEvent.isKill, hg0 50 0]
          · simp [hk, hw2, List.countP_append, List.countP_cons,
              SdEvent.isKill, hg0 50 0]
        · simp [hk, List.countP_append, List.countP_cons, SdEvent.isKill,
            hg0 50 0]
    · simp [hu, forceKill]
      by_cases hk : w.killOk
      · by_cases hw2 : w.waitOk
        · simp [hk, hw2, List.countP_cons, SdEvent.isKill]
        · simp [hk, hw2, List.countP_cons, SdEvent.isKill]
      · simp [hk, List.countP_cons, SdEvent.isKill]

/-- Claim C2: `shutdown()` is idempotent. For every supervisor state, a
second consecutive `shutdown()` returns success with no side effect (empty
event trace, state unchanged); at most one of the two calls ever issues the
kill; and a call with no process handle present is a no-op success. -/
theorem C2_shutdown_idempotent (plat : Bool) (b : PythonBackend)
    (w1 w2 : ShutdownWorld) :
    (shutdown plat (shutdown plat b w1).2.1 w2).1 = .ok ∧
    (shutdown plat (shutdown plat b w1).2.1 w2).2.2 = [] ∧
    (shutdown plat (shutdown plat b w1).2.1 w2).2.1 = (shutdown plat b w1).2.1 ∧
    (shutdown plat b w1).2.2.countP SdEvent.isKill
      + (shutdown plat (shutdown plat b w1).2.1 w2).2.2.countP SdEvent.isKill
      ≤ 1 ∧
    (b.process = none → shutdown plat b w1 = (.ok, b, [])) := by
  have h2 := shutdown_of_none plat (shutdown plat b w1).2.1 w2
    (shutdown_clears plat b w1)
  refine ⟨by rw [h2], by rw [h2], by rw [h2], ?_, shutdown_of_none plat b w1⟩
  rw [h2]
  simpa using shutdown_kill_count plat b w1

/-- Witness for C2 at concrete inputs: second call after a forced-kill
shutdown is a no-op success, and `shutdown` on a handle-less supervisor is a
no-op success. -/
theorem C2_shutdown_idempotent_witness :
    (shutdown true
        (shutdown true ⟨some 5, 8000, "http://localhost:8000"⟩
          ⟨fun _ => .statusErr, true, true⟩).2.1
        ⟨fun _ => .running, true, true⟩).1 = .ok ∧
    (shutdown true
        (shutdown true ⟨some 5, 8000, "http://localhost:8000"⟩
          ⟨fun _ => .statusErr, true, true⟩).2.1
        ⟨fun _ => .running, true, true⟩).2.2 = [] ∧
    shutdown true ⟨none, 8001, "http://localhost:8001"⟩
        ⟨fun _ => .running, true, true⟩
      = (.ok, ⟨none, 8001, "http://localhost:8001"⟩, []) := by
  have h := C2_shutdown_idempotent true ⟨some 5, 8000, "http://localhost:8000"⟩
    ⟨fun _ => .statusErr, true, true⟩ ⟨fun _ => .running, true, true⟩
  have h2 := C2_shutdown_idempotent true ⟨none, 8001, "http://localhost:8001"⟩
    ⟨fun _ => .running, true, true⟩ ⟨fun _ => .running, true, true⟩
  exact ⟨h.1, h.2.1, h2.2.2.2.2 rfl⟩

/-- Claim C8: after any `shutdown()` call — success or error — the supervisor
holds no process handle, `is_running()` returns false, and the port and base
URL are untouched: the handle is removed (`self.process.take()`) before any
failure can be reported. -/
theorem C8_shutdown_marks_stopped (plat : Bool) (b : PythonBackend)
    (w : ShutdownWorld) (tw2 : TryWaitResult) :
    (shutdown plat b w).2.1.process = none ∧
    (is_running (shutdown plat b w).2.1 tw2).1 = false ∧
    (shutdown plat b w).2.1.port = b.port ∧
    (shutdown plat b w).2.1.base_url = b.base_url := by
  have hc := shutdown_clears plat b w
  have hp := shutdown_preserves plat b w
  refine ⟨hc, ?_, hp.1, hp.2⟩
  simp [is_running, hc]

/-- Claim C10: `is_running()` returns true exactly when a process handle is
present and the child's `try_wait` reports it still running; in every other
case (absent handle, child exited, status unreadable) it returns false; and
the call leaves the supervisor state — handle, port, base URL — unchanged. -/
theorem C10_is_running_pure_probe (b : PythonBackend) (tw : TryWaitResult) :
    ((is_running b tw).1 = true ↔ b.process.isSome = true ∧ tw = .running) ∧
    (is_running b tw).2 = b := by
  cases hp : b.process <;> cases tw <;> simp [is_running, hp]

/-- Claim C5: with a process handle present (on unix, where the grace loop
exists), `shutdown()` polls the child every 100 ms inside a 5-second
(50 × 100 ms) grace window. If the child exits at poll `i` of the window,
`shutdown` returns success after `i` sleeps and `i + 1` polls and never
issues the forced kill; if the whole window sees it still running,
`shutdown` logs the forced-kill warning, issues `kill`, blocks on `wait`
(when `kill` succeeded at the OS level), and returns success when both
succeed. -/
theorem C5_grace_window (b : PythonBackend) (w : ShutdownWorld) (pid : Nat)
    (hp : b.process = some pid) :
    (∀ i, i < 50 → (∀ j, j < i → w.tw j = .running) → w.tw i = .exited →
      (shutdown true b w).1 = .ok ∧
      SdEvent.kill ∉ (shutdown true b w).2.2 ∧
      SdEvent.logForceKill ∉ (shutdown true b w).2.2 ∧
      (shutdown true b w).2.2.countP SdEvent.isSleep100 = i ∧
      (shutdown true b w).2.2.countP SdEvent.isTryWait = i + 1) ∧
    ((∀ i, i < 50 → w.tw i = .running) →
      SdEvent.logForceKill ∈ (shutdown true b w).2.2 ∧
      SdEvent.kill ∈ (shutdown true b w).2.2 ∧
      (shutdown true b w).2.2.countP SdEvent.isSleep100 = 50 ∧
      (shutdown true b w).2.2.countP SdEvent.isTryWait = 50 ∧
      (w.killOk = true → SdEvent.reap ∈ (shutdown true b w).2.2) ∧
      (w.killOk = true → w.waitOk = true → (shutdown true b w).1 = .ok)) := by
  constructor
  · intro i hi hrun hexit
    have hg := gracefulWait_exit_at w.tw 50 0 i hi
      (by intro j hj; simpa using hrun j hj) (by simpa using hexit)
    have hev := gracefulWait_events w.tw 50 0
    simp only [shutdown, hp, if_true, hg.1]
    refine ⟨by trivial, ?_, ?_, ?_, ?_⟩
    · simp [hev.1]
    · simp [hev.2.1]
    · simp [List.countP_cons, SdEvent.isSleep100, hg.2.1]
    · simp [List.countP_cons, SdEvent.isTryWait, hg.2.2]
  · intro hrun
    have hg := gracefulWait_all_running w.tw 50 0
      (by intro j hj; simpa using hrun j hj)
    simp only [shutdown, hp, if_true, hg.1, Bool.false_eq_true, if_false,
      forceKill]
    by_cases hk : w.killOk
    · by_cases hw2 : w.waitOk
      · simp only [hk, hw2, if_true]
        refine ⟨by simp, by simp, ?_, ?_, by intro _; simp, by intro _ _; trivial⟩
        · simp [List.countP_append, List.countP_cons, SdEvent.isSleep100,
            hg.2.1]
        · simp [List.countP_append, List.countP_cons, SdEvent.isTryWait,
            hg.2.2]
      · simp only [hk, hw2, if_true, Bool.false_eq_true, if_false]
        refine ⟨by simp, by simp, ?_, ?_, by intro _; simp,
          by intro _ h2; exact absurd h2 (by simp [hw2])⟩
        · simp [List.countP_append, List.countP_cons, SdEvent.isSleep100,
            hg.2.1]
        · simp [List.countP_append, List.countP_cons, SdEvent.isTryWait,
            hg.2.2]
    · simp only [hk, Bool.false_eq_true, if_false]
      refine ⟨by simp, by simp, ?_, ?_,
        by intro h1; exact absurd h1 (by simp [hk]),
        by intro h1 _; exact absurd h1 (by simp [hk])⟩
      · simp [List.countP_append, List.countP_cons, SdEvent.isSleep100,
          hg.2.1]
      · simp [List.countP_append, List.countP_cons, SdEvent.isTryWait,
          hg.2.2]

/-- Witness for C5 at concrete inputs: a child that exits at poll 3 of the
window (success, no forced kill, 3 sleeps), and a child that never exits
(forced kill issued and reaped, 50 sleeps, success). -/
theorem C5_grace_window_witness :
    ((shutdown true ⟨some 9, 8000, "http://localhost:8000"⟩
        ⟨fun i => if i < 3 then .running else .exited, true, true⟩).1 = .ok ∧
      SdEvent.kill ∉ (shutdown true ⟨some 9, 8000, "http://localhost:8000"⟩
        ⟨fun i => if i < 3 then .running else .exited, true, true⟩).2.2 ∧
      (shutdown true ⟨some 9, 8000, "http://localhost:8000"⟩
        ⟨fun i => if i < 3 then .running else .exited,
          true, true⟩).2.2.countP SdEvent.isSleep100 = 3) ∧
    (SdEvent.kill ∈ (shutdown true ⟨some 9, 8000, "http://localhost:8000"⟩
        ⟨fun _ => .running, true, true⟩).2.2 ∧
      (shutdown true ⟨some 9, 8000, "http://localhost:8000"⟩
        ⟨fun _ => .running, true, true⟩).1 = .ok) := by
  have hA := (C5_grace_window ⟨some 9, 8000, "http://localhost:8000"⟩
      ⟨fun i => if i < 3 then .running else .exited, true, true⟩ 9 rfl).1
    3 (by omega) (by intro j hj; simp [hj]) (by simp)
  have hB := (C5_grace_window ⟨some 9, 8000, "http://localhost:8000"⟩
      ⟨fun _ => .running, true, true⟩ 9 rfl).2
    (by intro i _; rfl)
  exact ⟨⟨hA.1, hA.2.1, hA.2.2.2.1⟩, hB.2.1, hB.2.2.2.2.2 rfl rfl⟩

/-- Counterexample to claim C9: on a non-unix target (`#[cfg(unix)]` absent;
windows is supported by the source, see `get_python_executable_name`),
`shutdown` issues the unconditional `child.kill()` without any prior graceful
termination request. -/
theorem C9_counterexample_nonunix_kill_without_graceful :
    SdEvent.kill ∈ (shutdown false ⟨some 7, 8000, "http://localhost:8000"⟩
        ⟨fun _ => .running, true, true⟩).2.2 ∧
    (shutdown false ⟨some 7, 8000, "http://localhost:8000"⟩
        ⟨fun _ => .running, true, true⟩).2.2.countP SdEvent.isSigterm = 0 := by
  decide

/-- Claim C9 as amended: the graceful-then-forced sequence exists only on
unix targets. On unix, `shutdown` with a live handle issues SIGTERM first
(it is the first event, so any forced kill comes after); on non-unix targets
`shutdown` issues only the unconditional forced kill, with no graceful
request at all. -/
theorem C9_graceful_then_forced_unix_only (b : PythonBackend)
    (w : ShutdownWorld) (pid : Nat) (hp : b.process = some pid) :
    (shutdown true b w).2.2.head? = some (.sigterm pid) ∧
    SdEvent.kill ∈ (shutdown false b w).2.2 ∧
    (shutdown false b w).2.2.countP SdEvent.isSigterm = 0 := by
  refine ⟨?_, ?_, ?_⟩
  · simp only [shutdown, hp, if_true]
    by_cases hg : (gracefulWait w.tw 0 50).1
    · simp [hg]
    · simp [hg, forceKill]
      by_cases hk : w.killOk
      · by_cases hw2 : w.waitOk
        · simp [hk, hw2]
        · simp [hk, hw2]
      · simp [hk]
  · simp only [shutdown, hp, Bool.false_eq_true, if_false, forceKill]
    by_cases hk : w.killOk
    · by_cases hw2 : w.waitOk
      · simp [hk, hw2]
      · simp [hk, hw2]
    · simp [hk]
  · simp only [shutdown, hp, Bool.false_eq_true, if_false, forceKill]
    by_cases hk : w.killOk
    · by_cases hw2 : w.waitOk
      · simp [hk, hw2, List.countP_cons, SdEvent.isSigterm]
      · simp [hk, hw2, List.countP_cons, SdEvent.isSigterm]
    · simp [hk, List.countP_cons, SdEvent.isSigterm]

/-- Witness for the amended C9 at a concrete input. -/
theorem C9_graceful_then_forced_unix_only_witness :
    (shutdown true ⟨some 7, 8000, "http://localhost:8000"⟩
        ⟨fun _ => .running, true, true⟩).2.2.head?
      = some (.sigterm 7) ∧
    SdEvent.kill ∈ (shutdown false ⟨some 7, 8000, "http://localhost:8000"⟩
        ⟨fun _ => .running, true, true⟩).2.2 := by
  have h := C9_graceful_then_forced_unix_only
    ⟨some 7, 8000, "http://localhost:8000"⟩ ⟨fun _ => .running, true, true⟩
    7 rfl
  exact ⟨h.1, h.2.1⟩

/-! ### Lemmas about the port scan -/

/-- A successful scan returns the least bindable port of the scanned
window. -/
theorem scanPorts_some (avail : Nat → Bool) :
    ∀ fuel p q, scanPorts avail p fuel = some q →
      p ≤ q ∧ q < p + fuel ∧ avail q = true ∧
      ∀ r, p ≤ r → r < q → avail r = false := by
  intro fuel
  induction fuel with
  | zero => intro p q h; simp [scanPorts] at h
  | succ fuel ih =>
    intro p q h
    by_cases ha : avail p
    · simp [scanPorts, is_port_available, ha] at h
      subst h
      exact ⟨le_refl p, by omega, ha, by intro r h1 h2; omega⟩
    · simp [scanPorts, is_port_available, ha] at h
      have ihx := ih (p + 1) q h
      refine ⟨by omega, by omega, ihx.2.2.1, ?_⟩
      intro r h1 h2
      rcases Nat.eq_or_lt_of_le h1 with he | hlt
      · rw [← he]
        exact Bool.eq_false_iff.mpr ha
      · exact ihx.2.2.2 r (by omega) h2

/-- If no port of the scanned window is bindable, the scan returns nothing. -/
theorem scanPorts_none (avail : Nat → Bool) :
    ∀ fuel p, (∀ q, p ≤ q → q < p + fuel → avail q = false) →
      scanPorts avail p fuel = none := by
  intro fuel
  induction fuel with
  | zero => intro p _; simp [scanPorts]
  | succ fuel ih =>
    intro p hall
    have ha : avail p = false := hall p (le_refl p) (by omega)
    simp [scanPorts, is_port_available, ha]
    exact ih (p + 1) (by intro q h1 h2; exact hall q (by omega) (by omega))

/-- If some port of the scanned window is bindable, the scan succeeds. -/
theorem scanPorts_isSome (avail : Nat → Bool) :
    ∀ fuel p q, p ≤ q → q < p + fuel → avail q = true →
      (scanPorts avail p fuel).isSome = true := by
  intro fuel
  induction fuel with
  | zero => intro p q h1 h2; omega
  | succ fuel ih =>
    intro p q h1 h2 hq
    by_cases ha : avail p
    · simp [scanPorts, is_port_available, ha]
    · have hpq : p ≠ q := by
        intro he; rw [he] at ha; exact ha hq
      simp [scanPorts, is_port_available, ha]
      exact ih (p + 1) q (by omega) (by omega) hq

/-- Claim C6: `find_available_port` scans the inclusive range in ascending
order and returns the first bindable port; if a port is returned it is in
range, bindable, and every smaller in-range port is unbindable; if no port
in the range is bindable it returns nothing (an `Option`, not an error or a
panic); and if some in-range port is bindable it returns something. -/
theorem C6_find_available_port_first_fit (avail : Nat → Bool)
    (s e : Nat) :
    (∀ p, find_available_port avail s e = some p →
      s ≤ p ∧ p ≤ e ∧ avail p = true ∧
      ∀ q, s ≤ q → q < p → avail q = false) ∧
    ((∀ p, s ≤ p → p ≤ e → avail p = false) →
      find_available_port avail s e = none) ∧
    ((∃ p, s ≤ p ∧ p ≤ e ∧ avail p = true) →
      (find_available_port avail s e).isSome = true) := by
  refine ⟨?_, ?_, ?_⟩
  · intro p h
    have hx := scanPorts_some avail (e + 1 - s) s p h
    have hse : s ≤ e + 1 := by
      have h1 := hx.1
      have h2 := hx.2.1
      omega
    refine ⟨hx.1, by omega, hx.2.2.1, ?_⟩
    intro q h1 h2
    exact hx.2.2.2 q h1 h2
  · intro hall
    apply scanPorts_none
    intro q h1 h2
    exact hall q h1 (by omega)
  · rintro ⟨p, h1, h2, h3⟩
    exact scanPorts_isSome avail (e + 1 - s) s p h1 (by omega) h3

/-- Witness for C6 at concrete inputs: with only 8002 bindable the scan
returns 8002, which is in range, bindable, and preceded only by unbindable
ports; with nothing bindable the scan returns `none`. -/
theorem C6_find_available_port_first_fit_witness :
    (8000 ≤ 8002 ∧ 8002 ≤ 9000 ∧ (fun p => p == 8002) 8002 = true ∧
      ∀ q, 8000 ≤ q → q < 8002 → (fun p => p == 8002) q = false) ∧
    find_available_port (fun _ => false) 8000 8005 = none := by
  constructor
  · exact (C6_find_available_port_first_fit (fun p => p == 8002) 8000 9000).1
      8002 (by decide)
  · exact (C6_find_available_port_first_fit (fun _ => false) 8000 8005).2.1
      (by intro p _ _; rfl)

/-- Once the slot is empty, every further `take()` observes `none`. -/
theorem run_takers_empty : ∀ n, run_takers none n = List.replicate n none := by
  intro n
  induction n with
  | zero => rfl
  | succ n ih => simp [run_takers, slot_take, ih, List.replicate]

/-- Claim C7: the mutex-guarded slot holds at most one handle and `take()`
removes it. Of `n + 1` serialised concurrent callers, the first receives the
slot's contents and all later ones observe an empty slot; at most one caller
receives a handle at all, and the total number of `kill`s issued by all
callers running `shutdown` on what they received is at most one. -/
theorem C7_take_at_most_one_kill (slot : Option PythonBackend) (n : Nat)
    (plat : Bool) (w : ShutdownWorld) :
    run_takers slot (n + 1) = slot :: List.replicate n none ∧
    (run_takers slot (n + 1)).countP (fun o => o.isSome) ≤ 1 ∧
    taker_kill_total plat w (run_takers slot (n + 1)) ≤ 1 := by
  have hr : run_takers slot (n + 1) = slot :: List.replicate n none := by
    simp [run_takers, slot_take, run_takers_empty]
  refine ⟨hr, ?_, ?_⟩
  · rw [hr]
    have hz : (List.replicate n none).countP
        (fun o : Option PythonBackend => o.isSome) = 0 := by
      rw [List.countP_eq_zero]
      intro a ha
      rw [List.eq_of_mem_replicate ha]
      simp
    cases slot <;> simp [List.countP_cons, hz]
  · rw [hr]
    have hz : taker_kill_total plat w (List.replicate n none) = 0 := by
      induction n with
      | zero => rfl
      | succ n ih => simp [taker_kill_total, List.replicate] at ih ⊢
    cases slot with
    | none => simp [taker_kill_total]
    | some b =>
      have hb := shutdown_kill_count plat b w
      simp only [taker_kill_total, List.map_cons, List.sum_cons]
      have hz2 : (List.map (fun o =>
          match o with
          | some b => (shutdown plat b w).2.2.countP SdEvent.isKill
          | none => 0) (List.replicate n none)).sum = 0 := by
        simp only [taker_kill_total] at hz
        exact hz
      rw [hz2]
      simp only [Nat.add_zero]
      exact hb

/-- The environment of C1's failing scenario: port 8000 free, all paths
resolve, the spawn succeeds (pid 42), and the health endpoint never answers
— the probe fails on all 30 default attempts. -/
def c1World : LaunchWorld :=
  { avail := fun p => p == 8000, dbPathOk := true, pathsOk := true,
    pythonExists := true, appRootExists := true, spawnOk := true, pid := 42,
    resp := fun _ => .netError }

/-- Claim C1, evaluated at the failing input: when the spawn succeeds and
the readiness probe then fails, `launch` propagates the readiness error via
`?` and merely drops the `Child` — the event trace contains the spawn and no
kill, so the spawned child is left running (orphaned), contradicting the
spec's required compensating kill. -/
theorem C1_probe_failure_leaves_child_running :
    (launch c1World).1 = .error (.healthCheckFailed 30 30) ∧
    (launch c1World).2 = [LaunchEvent.spawn 42] ∧
    (launch c1World).2.countP LaunchEvent.isKillChild = 0 := by
  refine ⟨by rfl, by decide, by decide⟩

/-- A supervisor and two shutdown worlds used in the C3 scenarios: in
`c3FailWorld` the first `try_wait` errors and `kill` fails, so `shutdown`
returns an error; in `c3OkWorld` the child exits at the first poll. -/
def c3Backend : PythonBackend := ⟨some 5, 8000, "http://localhost:8000"⟩

def c3FailWorld : ShutdownWorld := ⟨fun _ => .statusErr, false, true⟩

def c3OkWorld : ShutdownWorld := ⟨fun _ => .exited, true, true⟩

/-- Counterexample to claim C3: with `force` unset and a failing backend
shutdown, `quit_app` logs the error but returns `Err` without ever calling
`app.exit` — the quit path does not proceed to exit. -/
theorem C3_counterexample_quit_without_force :
    quit_app (some c3Backend) none true c3FailWorld
      = (.err, none, [.backendShutdown, .logShutdownError]) := by
  decide

/-- Claim C3 as amended: the window-close path always completes (logs any
shutdown failure and still reaches `log_shutdown`, never blocking the
close); the quit command proceeds to exit despite a failed shutdown only
when `force` is true (`app.exit(1)`), while with `force` unset or false it
returns an error to the invoker and performs no exit; when shutdown
succeeds it always exits with code 0. -/
theorem C3_amended_exit_paths (slot : Option PythonBackend)
    (b : PythonBackend) (plat : Bool) (w : ShutdownWorld) :
    (QEvent.logShutdown ∈ (on_close_requested slot plat w).2 ∧
      (on_close_requested slot plat w).1 = none) ∧
    ((shutdown plat b w).1 ≠ .ok →
      (quit_app (some b) (some true) plat w).1 = .ok ∧
      QEvent.exit 1 ∈ (quit_app (some b) (some true) plat w).2.2) ∧
    ((shutdown plat b w).1 ≠ .ok → ∀ force, force.getD false = false →
      quit_app (some b) force plat w
        = (.err, none, [.backendShutdown, .logShutdownError])) ∧
    ((shutdown plat b w).1 = .ok → ∀ force,
      quit_app (some b) force plat w
        = (.ok, none, [.backendShutdown, .logShutdown, .exit 0])) := by
  refine ⟨?_, ?_, ?_, ?_⟩
  · cases slot with
    | none => simp [on_close_requested]
    | some backend =>
      cases hs : (shutdown plat backend w).1 with
      | ok => simp [on_close_requested, hs]
      | killFailed => simp [on_close_requested, hs]
      | reapFailed => simp [on_close_requested, hs]
  · intro hne
    cases hs : (shutdown plat b w).1 with
    | ok => exact absurd hs hne
    | killFailed => simp [quit_app, hs]
    | reapFailed => simp [quit_app, hs]
  · intro hne force hf
    cases hs : (shutdown plat b w).1 with
    | ok => exact absurd hs hne
    | killFailed => simp [quit_app, hs, hf]
    | reapFailed => simp [quit_app, hs, hf]
  · intro hok force
    simp [quit_app, hok]

/-- Witness for the amended C3 at concrete inputs: a failing shutdown with
`force = some true` still exits (code 1); the same failing shutdown with
`force = none` returns the error without exiting; a succeeding shutdown
exits with code 0; and the close handler always reaches `log_shutdown`. -/
theorem C3_amended_exit_paths_witness :
    QEvent.logShutdown ∈ (on_close_requested (some c3Backend) true
      c3FailWorld).2 ∧
    ((quit_app (some c3Backend) (some true) true c3FailWorld).1 = .ok ∧
      QEvent.exit 1 ∈ (quit_app (some c3Backend) (some true) true
        c3FailWorld).2.2) ∧
    quit_app (some c3Backend) none true c3FailWorld
      = (.err, none, [.backendShutdown, .logShutdownError]) ∧
    quit_app (some c3Backend) none true c3OkWorld
      = (.ok, none, [.backendShutdown, .logShutdown, .exit 0]) := by
  have h1 := (C3_amended_exit_paths (some c3Backend) c3Backend true
    c3FailWorld).1.1
  have h2 := (C3_amended_exit_paths (some c3Backend) c3Backend true
    c3FailWorld).2.1 (by decide)
  have h3 := (C3_amended_exit_paths (some c3Backend) c3Backend true
    c3FailWorld).2.2.1 (by decide) none (by decide)
  have h4 := (C3_amended_exit_paths (some c3Backend) c3Backend true
    c3OkWorld).2.2.2 (by decide) none
  exact ⟨h1, h2, h3, h4⟩

end JTerm
